import Mathlib

/-!
Verification development for the MCPFlightBooking repository.

Shallow embedding of the host (`src/backend/server.py`), the flight-search
cache (`src/MCPservers/flightsearch.py`), the booking tool
(`src/MCPservers/flightbooking.py`) and the datastore (`src/backend/db.py`).

Modelling conventions, stated once:
- Python JSON values are the inductive `Json`; numbers are `Int` (no claim
  depends on float behaviour).
- `json.loads` and the fence regex of `_extract_json` are external library
  behaviour; they enter as oracle parameters (`jl : String → Option Json`,
  `fm : String → Option String`).  The surrounding control flow is translated
  from the source.
- The Gemini completion call is an oracle.  Prompt strings carry no logic, so
  a model call is represented by the structured `LLMRequest` value holding
  exactly the data the source interpolates into the prompt; the instrumented
  outputs record every model request and every MCP tool invocation made.
- `uuid4()` minting is modelled by a counter (`nextToken`) producing fresh
  values; freshness of real uuids corresponds to the counter invariant.
- Python `dict` state (`pending_tool_calls`, `conversation_history`) is an
  association list with unique keys; assignment overwrites, `pop` removes.
-/

/-- Python/JSON value, as produced by `json.loads`.  Numbers are modelled by
`Int`; object fields are an association list (duplicate keys are resolved by
`pyGet`, which takes the last occurrence, matching `json.loads`). -/
inductive Json where
  | null : Json
  | bool (b : Bool) : Json
  | num (n : Int) : Json
  | str (s : String) : Json
  | arr (xs : List Json) : Json
  | obj (kvs : List (String × Json)) : Json

/-- Dictionary lookup on a parsed JSON object: last binding of the key wins,
matching the dict that `json.loads` builds. -/
def pyGet (kvs : List (String × Json)) (k : String) : Option Json :=
  (kvs.reverse.find? (fun e => e.1 == k)).map (·.2)

/-- Python truthiness of a JSON value (used by `tool_args = ... or {}`). -/
def jsonTruthy : Json → Bool
  | .null => false
  | .bool b => b
  | .num n => n != 0
  | .str s => !s.isEmpty
  | .arr xs => !xs.isEmpty
  | .obj kvs => !kvs.isEmpty

/-- An apostrophe character, for rendering source strings that contain one. -/
def squote : String := String.mk [Char.ofNat 39]

/-- Rendering of a JSON value into prompt/message text.  Abstracts Python
`str()` / `json.dumps`; no claim depends on the rendering of containers. -/
def pyStr : Json → String
  | .null => "None"
  | .bool true => "True"
  | .bool false => "False"
  | .num n => toString n
  | .str s => s
  | .arr _ => "<list>"
  | .obj _ => "<dict>"

/-- GeminiMCPHost._extract_json: if the fence regex finds a candidate, parse
that candidate; otherwise parse the whole trimmed response.  Only a
successfully parsed object (dict) is returned; any parse failure or non-object
result yields `none`.  `fm` is the fence-regex oracle, `jl` the `json.loads`
oracle. -/
def extract_json (fm : String → Option String) (jl : String → Option Json)
    (text : String) : Option (List (String × Json)) :=
  let candidate := (fm text).getD text.trim
  match jl candidate with
  | some (.obj kvs) => some kvs
  | _ => none

/-- Post-processing of an `Option Json` exactly as `_extract_json` keeps only
dicts; used to state what `extract_json` does with the chosen candidate. -/
def jsonObjFields : Option Json → Option (List (String × Json))
  | some (.obj kvs) => some kvs
  | _ => none

theorem extract_json_eq (fm : String → Option String) (jl : String → Option Json)
    (text : String) :
    extract_json fm jl text = jsonObjFields (jl ((fm text).getD text.trim)) := by
  unfold extract_json jsonObjFields
  rfl

/-!
## Providers, the Tool Router and the Executor

`GeminiMCPHost.sessions` is a dict built at startup in registration order of
`server_script_paths`; iteration order is insertion order, so it is modelled
as a list.  `list_tools()` of a provider is its `catalog`; `call_tool` is its
`call` field (`.error` models a raised exception). -/

/-- One connected MCP server: its registry name, its live tool catalog, and
its `call_tool` behaviour. -/
structure Provider where
  name : String
  catalog : List String
  call : Json → Json → Except String String

/-- Python equality between a JSON-decoded value and a `str` tool name, as
used by `if tool_name in tool_names` in `execute_tool_call`.  Only an exact,
case-sensitive string match succeeds. -/
def jsonEqStr : Json → String → Bool
  | .str s, t => s == t
  | _, _ => false

/-- The tool-resolution loop of `execute_tool_call` / `process_query`:
walk the sessions in registration order and stop at the first provider whose
current catalog contains the requested name. -/
def findProvider : List Provider → Json → Option Provider
  | [], _ => none
  | p :: rest, v =>
      if p.catalog.any (fun t => jsonEqStr v t) then some p
      else findProvider rest v

/-- Data of one Gemini completion call, holding exactly what the source
interpolates into the prompt (prompt prose itself carries no logic). -/
inductive LLMRequest where
  | explainToolError (query : String) (toolName : Json) (args : Json) (err : String)
  | summarizeResult (query : String) (toolName : Json) (args : Json) (result : String)

/-- Result of `execute_tool_call`, instrumented with the MCP tool invocations
attempted and the model calls made. -/
structure ExecOutcome where
  reply : String
  toolCalls : List (Json × Json)
  modelRequests : List LLMRequest

/-- The literal message `execute_tool_call` returns when no session owns the
tool: f-string `Tool '{tool_name}' not found in any connected MCP server.`. -/
def toolNotFoundMsg (toolName : Json) : String :=
  "Tool " ++ squote ++ pyStr toolName ++ squote ++
    " not found in any connected MCP server."

/-- GeminiMCPHost.execute_tool_call (server.py lines 226-294): guard on empty
sessions; find the owning session; invoke the tool there; on a raised
exception ask the model to explain it; on success ask the model to summarize
the raw result; if no session owns the tool, return the fixed not-found
message (no model call is made on that path). -/
def execute_tool_call (llm : LLMRequest → String) (providers : List Provider)
    (toolName : Json) (toolArgs : Json) (query : String) : ExecOutcome :=
  if providers.isEmpty then
    ⟨"MCP sessions not initialized on server.", [], []⟩
  else
    match findProvider providers toolName with
    | none => ⟨toolNotFoundMsg toolName, [], []⟩
    | some p =>
      match p.call toolName toolArgs with
      | .error e =>
          let req := LLMRequest.explainToolError query toolName toolArgs e
          ⟨llm req, [(toolName, toolArgs)], [req]⟩
      | .ok res =>
          let req := LLMRequest.summarizeResult query toolName toolArgs res
          ⟨llm req, [(toolName, toolArgs)], [req]⟩

/-!
## The Planner / submit path (`process_query_with_auth`)

The model response for the turn enters as `initialText` (the completion call
is an oracle; the prompt is built from the catalog, identity and context and
carries no logic relevant to the claims).  `user_info` storage is orthogonal
to every claim and is not modelled. -/

/-- Snapshot stored in `pending_tool_calls` for one proposal (`tool_data` in
the source; the conversation/user-info snapshot only feeds prompt text and is
omitted).  `user_session_id` is filled in by the `/chat` endpoint. -/
structure ToolData where
  tool_name : Json
  tool_args : Json
  query : String
  user_session_id : String

/-- Result of `process_query_with_auth`, instrumented like `ExecOutcome`. -/
structure SubmitOutcome where
  reply : String
  needs_authorization : Bool
  toolData : Option ToolData
  toolCalls : List (Json × Json)

/-- The authorization-request reply text built by `process_query_with_auth`
(`json.dumps` of the args abstracted by `pyStr`). -/
def authRequestMsg (toolName args : Json) : String :=
  "The AI wants to call the tool: **" ++ pyStr toolName ++
    "**\n\nArguments: " ++ pyStr args ++ "\n\nDo you authorize this action?"

/-- The proposed arguments: `parsed.get("args", {}) or {}` — the `"args"`
value when present and truthy, an empty mapping otherwise. -/
def pyArgs (kvs : List (String × Json)) : Json :=
  let argsRaw := (pyGet kvs "args").getD (Json.obj [])
  if jsonTruthy argsRaw then argsRaw else Json.obj []

/-- Decision taken on the parsed JSON object (`server.py` lines 201-224):
an empty dict is falsy (`if not parsed`), a dict without `"tool"` is a plain
answer; otherwise the `"tool"` value is proposed with arguments `pyArgs`. -/
def planDecision (kvs : List (String × Json)) (initialText query : String) :
    SubmitOutcome :=
  if kvs.isEmpty then ⟨initialText, false, none, []⟩
  else
    match pyGet kvs "tool" with
    | none => ⟨initialText, false, none, []⟩
    | some toolVal =>
        ⟨authRequestMsg toolVal (pyArgs kvs), true,
         some ⟨toolVal, pyArgs kvs, query, ""⟩, []⟩

/-- GeminiMCPHost.process_query_with_auth (server.py lines 94-224): guard on
empty sessions; extract a JSON object from the model response; either return
the raw response as the final answer, or return a proposal that needs
authorization.  No MCP tool is ever invoked here. -/
def process_query_with_auth (providers : List Provider)
    (fm : String → Option String) (jl : String → Option Json)
    (initialText query : String) : SubmitOutcome :=
  if providers.isEmpty then
    ⟨"MCP sessions not initialized on server.", false, none, []⟩
  else
    match extract_json fm jl initialText with
    | none => ⟨initialText, false, none, []⟩
    | some kvs => planDecision kvs initialText query

/-!
## Server state: pending proposals and conversation histories

`pending_tool_calls : Dict[str, Dict]` keyed by a fresh `uuid4()` per `/chat`
request, and `conversation_history : Dict[str, List]` keyed by the browser
session id.  Tokens are modelled as `Nat`, minted from the `nextToken`
counter (the freshness of `uuid4()`). -/

/-- One conversation entry (`{"role": ..., "message": ...}`). -/
structure Msg where
  role : String
  message : String

/-- The module-level mutable state of `server.py`. -/
structure ServerState where
  pending : List (Nat × ToolData)
  history : List (String × List Msg)
  nextToken : Nat

/-- Dict lookup in the pending set. -/
def lookupPending (p : List (Nat × ToolData)) (t : Nat) : Option ToolData :=
  (p.find? (fun kv => kv.1 == t)).map (·.2)

/-- `pending_tool_calls.pop(session_id)`: remove the token's entry. -/
def removePending (p : List (Nat × ToolData)) (t : Nat) : List (Nat × ToolData) :=
  p.filter (fun kv => !(kv.1 == t))

/-- `pending_tool_calls[session_id] = tool_data`: dict assignment
(overwrite-or-append; with fresh tokens the key is always new). -/
def insertPending (p : List (Nat × ToolData)) (t : Nat) (d : ToolData) :
    List (Nat × ToolData) :=
  p.filter (fun kv => !(kv.1 == t)) ++ [(t, d)]

/-- Dict lookup in the conversation-history store. -/
def lookupHist (h : List (String × List Msg)) (sid : String) : Option (List Msg) :=
  (h.find? (fun kv => kv.1 == sid)).map (·.2)

/-- `if user_session_id not in conversation_history: ... = []`. -/
def ensureHist (h : List (String × List Msg)) (sid : String) :
    List (String × List Msg) :=
  if h.any (fun kv => kv.1 == sid) then h else h ++ [(sid, [])]

/-- `conversation_history[sid].append(msg)` guarded by
`if sid in conversation_history` (a no-op when the key is absent, exactly as
in `authorize_tool`). -/
def appendHist (h : List (String × List Msg)) (sid : String) (m : Msg) :
    List (String × List Msg) :=
  h.map (fun kv => if kv.1 == sid then (kv.1, kv.2 ++ [m]) else kv)

/-- Response of the `/chat` endpoint, instrumented with the MCP tool
invocations made while serving it. -/
structure ChatOutcome where
  reply : String
  needs_authorization : Bool
  requestToken : Option Nat
  toolCalls : List (Json × Json)

/-- The `/chat` endpoint (server.py lines 525-574): mint a fresh request
token, create the session history if absent, run the planner, append the user
message, and either store the proposal in the pending set (no assistant entry
yet) or append the assistant answer.  `initialText` is the model response for
this turn; a request without `user_session_id` gets a fresh one in the
source, modelled as the caller passing it. -/
def chat (providers : List Provider) (fm : String → Option String)
    (jl : String → Option Json) (st : ServerState)
    (initialText message userSessionId : String) : ChatOutcome × ServerState :=
  let token := st.nextToken
  let st1 : ServerState :=
    { st with nextToken := st.nextToken + 1,
              history := ensureHist st.history userSessionId }
  let out := process_query_with_auth providers fm jl initialText message
  let st2 : ServerState :=
    { st1 with history := appendHist st1.history userSessionId ⟨"user", message⟩ }
  match out.toolData with
  | some td =>
      let td := { td with user_session_id := userSessionId }
      (⟨out.reply, true, some token, out.toolCalls⟩,
       { st2 with pending := insertPending st2.pending token td })
  | none =>
      (⟨out.reply, false, none, out.toolCalls⟩,
       { st2 with history := appendHist st2.history userSessionId
                    ⟨"assistant", out.reply⟩ })

/-- Outcome of `/authorize_tool`: the 404 path (`Session not found`) or a
chat reply. -/
inductive AuthResult where
  | notFound : AuthResult
  | reply (text : String) : AuthResult

/-- Instrumented result of `/authorize_tool`. -/
structure AuthOutcome where
  result : AuthResult
  toolCalls : List (Json × Json)
  modelRequests : List LLMRequest

/-- The literal denial reply of `/authorize_tool`. -/
def deniedMsg : String := "Tool call was denied by user."

/-- The `/authorize_tool` endpoint (server.py lines 620-658): 404 when the
token is not pending; otherwise pop the proposal, and either short-circuit
with the denial reply or run the Executor; in both cases append one assistant
entry to the originating session's history (the source guards the append on
the key being in `conversation_history`; `appendHist` is a no-op then). -/
def authorize_tool (llm : LLMRequest → String) (providers : List Provider)
    (st : ServerState) (token : Nat) (authorized : Bool) :
    AuthOutcome × ServerState :=
  match lookupPending st.pending token with
  | none => (⟨.notFound, [], []⟩, st)
  | some td =>
      let st1 : ServerState := { st with pending := removePending st.pending token }
      if authorized then
        let ex := execute_tool_call llm providers td.tool_name td.tool_args td.query
        (⟨.reply ex.reply, ex.toolCalls, ex.modelRequests⟩,
         { st1 with history := appendHist st1.history td.user_session_id
                      ⟨"assistant", ex.reply⟩ })
      else
        (⟨.reply deniedMsg, [], []⟩,
         { st1 with history := appendHist st1.history td.user_session_id
                      ⟨"assistant", deniedMsg⟩ })

/-- One externally driven request against the host (`/execute_tool` never
touches the pending set and is omitted). -/
inductive Step where
  | chatStep (initialText message userSessionId : String) : Step
  | authStep (token : Nat) (authorized : Bool) : Step

/-- State transition of one request. -/
def runStep (providers : List Provider) (fm : String → Option String)
    (jl : String → Option Json) (llm : LLMRequest → String)
    (st : ServerState) : Step → ServerState
  | .chatStep it m u => (chat providers fm jl st it m u).2
  | .authStep t a => (authorize_tool llm providers st t a).2

/-- State after a sequence of requests. -/
def runSteps (providers : List Provider) (fm : String → Option String)
    (jl : String → Option Json) (llm : LLMRequest → String)
    (st : ServerState) (steps : List Step) : ServerState :=
  steps.foldl (runStep providers fm jl llm) st

/-!
## Flight-search LRU cache (`src/MCPservers/flightsearch.py`)

`flight_cache` is an `OrderedDict` keyed by `(origin, destination, date)`;
the first entry is the least recently used.  It is modelled as a list of
key/value pairs in recency order (head = LRU). -/

/-- The cache key `(origin, destination, date)`. -/
abbrev CacheKey := String × String × String

/-- The cache: key/value pairs, head = least recently used. -/
abbrev Cache := List (CacheKey × String)

/-- `MAX_CACHE_SIZE` from flightsearch.py. -/
def MAX_CACHE_SIZE : Nat := 100

/-- `key in flight_cache`. -/
def cacheMember (c : Cache) (k : CacheKey) : Bool :=
  c.any (fun e => e.1 == k)

/-- `flight_cache.move_to_end(key)`: an existing key moves to the
most-recently-used end, keeping its value; absent keys leave the dict
unchanged (the source only calls it on a hit). -/
def move_to_end (c : Cache) (k : CacheKey) : Cache :=
  match c.find? (fun e => e.1 == k) with
  | none => c
  | some kv => c.filter (fun e => !(e.1 == k)) ++ [kv]

/-- `_add_to_cache` (flightsearch.py lines 378-394): when the cache is full
and the key is new, pop the first (least recently used) entry; then the dict
assignment `flight_cache[key] = value` updates an existing key in place or
appends a new key at the most-recently-used end. -/
def _add_to_cache (c : Cache) (k : CacheKey) (v : String) : Cache :=
  let c1 := if MAX_CACHE_SIZE ≤ c.length ∧ cacheMember c k = false then c.tail else c
  if cacheMember c1 k then c1.map (fun e => if e.1 == k then (k, v) else e)
  else c1 ++ [(k, v)]

/-- What the environment does on one `search_flights` call: the inputs fail
validation (including same-origin-destination and bad date, all returning
before any cache access), or the backend fetch fails (`flights is None`, no
cache write), or the backend answers and `result` is the rendered reply
string that gets cached (the no-flights message is cached too). -/
inductive SearchEvent where
  | invalid : SearchEvent
  | apiFail : SearchEvent
  | apiOk (result : String) : SearchEvent

/-- Effect of one `search_flights` call on the cache (flightsearch.py lines
282-375 with `CACHE_ENABLED = True`): a hit moves the key to the
most-recently-used end and returns the cached value; a miss consults the
backend and caches a rendered result. -/
def search_step (c : Cache) (k : CacheKey) (ev : SearchEvent) : Cache :=
  match ev with
  | .invalid => c
  | .apiFail => if cacheMember c k then move_to_end c k else c
  | .apiOk r => if cacheMember c k then move_to_end c k else _add_to_cache c k r

/-- Cache state after a sequence of `search_flights` calls. -/
def search_steps (c : Cache) (steps : List (CacheKey × SearchEvent)) : Cache :=
  steps.foldl (fun acc kv => search_step acc kv.1 kv.2) c

/-!
## Datastore (`src/backend/db.py`)

SQLite rows become records; `uuid4().hex[:10].upper()` booking-id minting is
a counter-backed supply; `_now_iso()` timestamps are an abstract `Int` clock
passed in by the caller. -/

/-- A row of the `flights` table (`price` is `REAL`; modelled as `Int`
because no claim depends on it). -/
structure Flight where
  id : String
  origin : String
  destination : String
  date : String
  airline : String
  price : Int
  available_seats : Int
deriving DecidableEq

/-- A row of the `bookings` table. -/
structure BookingRow where
  id : String
  user_id : String
  flight_id : String
  passenger_name : String
  passenger_email : String
  seats : Int
  status : String
  created_at : Int
  updated_at : Int
  hold_expires_at : Option Int
  cancellation_reason : Option String
deriving DecidableEq

/-- The database: both tables plus the booking-id supply. -/
structure DB where
  flights : List Flight
  bookings : List BookingRow
  nextBookingIdx : Nat

/-- A minted booking id (`BK-` followed by fresh uuid hex). -/
def mkBookingId (n : Nat) : String := "BK-" ++ toString n

/-- `SELECT ... FROM flights WHERE id = ?` (first matching row). -/
def findFlight (db : DB) (fid : String) : Option Flight :=
  db.flights.find? (fun f => f.id == fid)

/-- Result dict of `check_seat_availability`; `flightMissing` models the
presence of the `"error": "Flight not found"` key. -/
structure Availability where
  available : Bool
  seats_remaining : Int
  flightMissing : Bool

/-- db.check_seat_availability (db.py lines 96-117). -/
def check_seat_availability (db : DB) (flight_id : String) (seats_requested : Int) :
    Availability :=
  match findFlight db flight_id with
  | none => ⟨false, 0, true⟩
  | some f => ⟨decide (seats_requested ≤ f.available_seats), f.available_seats, false⟩

/-- The insufficient-seats ValueError message of `create_booking`. -/
def notEnoughMsg (remaining : Int) : String :=
  "Not enough seats available. This flight has only " ++ toString remaining ++
    " seats remaining."

/-- db.create_booking (db.py lines 239-320): validate availability first
(raising ValueError before any write), then insert the booking row and
decrement the flight's `available_seats` in one transaction.  The pair
carries the possibly-raising result together with the resulting database
(unchanged when the error is raised). -/
def create_booking (db : DB) (now : Int)
    (user_id flight_id passenger_name passenger_email : String)
    (seats : Int) (status : String) (hold_minutes : Option Int) :
    Except String BookingRow × DB :=
  let av := check_seat_availability db flight_id seats
  if av.available then
    let booking_id := mkBookingId db.nextBookingIdx
    let hold_expires_at : Option Int :=
      if status = "HELD" then
        match hold_minutes with
        | some m => if 0 < m then some (now + m) else none
        | none => none
      else none
    let row : BookingRow :=
      ⟨booking_id, user_id, flight_id, passenger_name, passenger_email,
       seats, status, now, now, hold_expires_at, none⟩
    (.ok row,
     { db with
        bookings := db.bookings ++ [row],
        flights := db.flights.map (fun f =>
          if f.id == flight_id then
            { f with available_seats := f.available_seats - seats }
          else f),
        nextBookingIdx := db.nextBookingIdx + 1 })
  else if av.flightMissing then (.error "Flight not found", db)
  else (.error (notEnoughMsg av.seats_remaining), db)

/-- db.delete_booking (db.py lines 393-434): look the booking up; `False`
when absent; otherwise delete the row and add its seats back to the flight
in one transaction. -/
def delete_booking (db : DB) (booking_id : String) : Bool × DB :=
  match db.bookings.find? (fun b => b.id == booking_id) with
  | none => (false, db)
  | some b =>
      (true,
       { db with
          bookings := db.bookings.filter (fun r => !(r.id == booking_id)),
          flights := db.flights.map (fun f =>
            if f.id == b.flight_id then
              { f with available_seats := f.available_seats + b.seats }
            else f) })

/-!
## The `hold_flight` tool (`src/MCPservers/flightbooking.py`)

`validate_booking_input` is pydantic behaviour (EmailStr, regexes) and enters
as an oracle returning `none` on success or `some errorMessage`; the booking
API call is an oracle as well, instrumented so a theorem can state that it
was or was not reached. -/

/-- Arguments shared by `book_flight` and `hold_flight` and checked by
`validate_booking_input`. -/
structure BookingArgs where
  user_id : String
  flight_id : String
  passenger_name : String
  passenger_email : String
  seats : Int

/-- One request to `create_booking_via_api` (the POST body). -/
structure CreateReq where
  user_id : String
  flight_id : String
  passenger_name : String
  passenger_email : String
  seats : Int
  status : String
  hold_minutes : Option Int
deriving DecidableEq

/-- Reply of an MCP booking tool, instrumented with the booking-API calls
made while producing it. -/
structure ToolCallOutcome where
  reply : String
  apiCalls : List CreateReq

/-- The literal guard message of `hold_flight` for an out-of-range
`hold_minutes`. -/
def invalidHoldDurationMsg : String :=
  "❌ Invalid hold duration. Please specify between 1 and 1440 minutes (24 hours)."

/-- Python `sub in s.lower()` (used to classify API error messages). -/
def lowerHas (s sub : String) : Bool :=
  (s.toLower.splitOn sub).length != 1

/-- hold_flight (flightbooking.py lines 489-543): validate the booking
inputs; reject `hold_minutes` outside `(0, 1440]` before any API call;
otherwise create a HELD booking through the API and format the outcome. -/
def hold_flight (validate : BookingArgs → Option String)
    (api : CreateReq → Except String BookingRow)
    (fb : BookingRow → String)
    (a : BookingArgs) (hold_minutes : Int) : ToolCallOutcome :=
  match validate a with
  | some msg => ⟨"❌ Validation Error: " ++ msg, []⟩
  | none =>
    if hold_minutes ≤ 0 ∨ 1440 < hold_minutes then ⟨invalidHoldDurationMsg, []⟩
    else
      let req : CreateReq :=
        ⟨a.user_id, a.flight_id, a.passenger_name, a.passenger_email,
         a.seats, "HELD", some hold_minutes⟩
      match api req with
      | .error e =>
          if lowerHas e "enough seats" || lowerHas e "seats remaining" then
            ⟨"❌ " ++ e, [req]⟩
          else ⟨"❌ Hold Failed: " ++ e, [req]⟩
      | .ok b => ⟨"✅ Flight Hold Created!\n\n" ++ fb b, [req]⟩
/-!
## Association-list lemmas for the server dictionaries
-/

theorem lookupPending_remove (p : List (Nat × ToolData)) (t t' : Nat) :
    lookupPending (removePending p t) t' =
      if t' = t then none else lookupPending p t' := by
  unfold lookupPending removePending
  induction p with
  | nil => simp
  | cons kv rest ih =>
      by_cases h1 : kv.1 = t <;> by_cases h2 : kv.1 = t' <;> by_cases h3 : t' = t <;>
        simp_all [List.filter_cons, List.find?_cons]

theorem lookupPending_insert (p : List (Nat × ToolData)) (t : Nat) (d : ToolData)
    (t' : Nat) :
    lookupPending (insertPending p t d) t' =
      if t' = t then some d else lookupPending p t' := by
  unfold insertPending
  by_cases h3 : t' = t
  · subst h3
    unfold lookupPending
    rw [List.find?_append]
    have hnone : (p.filter (fun kv => !(kv.1 == t'))).find? (fun kv => kv.1 == t') = none := by
      rw [List.find?_eq_none]
      intro a ha
      have := (List.mem_filter.mp ha).2
      simp_all
    simp [hnone]
  · have hrem := lookupPending_remove p t t'
    rw [if_neg h3] at hrem
    unfold lookupPending removePending at *
    rw [if_neg h3, List.find?_append]
    have ht : ([(t, d)].find? fun kv => kv.1 == t') = none := by
      have hne : (t == t') = false := by
        simp only [beq_eq_false_iff_ne, ne_eq]
        exact fun he => h3 he.symm
      simp [List.find?_singleton, hne]
    rw [ht, Option.or_none]
    exact hrem

theorem lookupHist_append (h : List (String × List Msg)) (sid : String) (m : Msg)
    (sid' : String) :
    lookupHist (appendHist h sid m) sid' =
      if sid' = sid then (lookupHist h sid').map (fun l => l ++ [m])
      else lookupHist h sid' := by
  unfold lookupHist appendHist
  induction h with
  | nil => by_cases h3 : sid' = sid <;> simp_all
  | cons kv rest ih =>
      by_cases h1 : kv.1 = sid <;> by_cases h2 : kv.1 = sid' <;>
        by_cases h3 : sid' = sid <;> simp_all [List.find?_cons]

theorem lookupHist_ensure (h : List (String × List Msg)) (sid sid' : String) :
    lookupHist (ensureHist h sid) sid' =
      if sid' = sid then some ((lookupHist h sid).getD [])
      else lookupHist h sid' := by
  unfold lookupHist ensureHist
  by_cases hmem : (h.any fun kv => kv.1 == sid) = true
  · rw [if_pos hmem]
    by_cases h3 : sid' = sid
    · subst h3
      rcases List.any_eq_true.mp hmem with ⟨kv, hkv, hpred⟩
      have hne : h.find? (fun kv => kv.1 == sid') ≠ none := by
        intro hn
        rw [List.find?_eq_none] at hn
        exact hn kv hkv hpred
      rcases Option.ne_none_iff_exists'.mp hne with ⟨v, hv⟩
      simp [hv]
    · simp [h3]
  · rw [if_neg hmem]
    have hnone : h.find? (fun kv => kv.1 == sid) = none := by
      rw [List.find?_eq_none]
      intro a ha hp
      exact hmem (List.any_eq_true.mpr ⟨a, ha, hp⟩)
    rw [List.find?_append]
    by_cases h3 : sid' = sid
    · subst h3; simp [hnone]
    · have hs : (sid == sid') = false := by
        simp only [beq_eq_false_iff_ne, ne_eq]
        exact fun he => h3 he.symm
      simp [List.find?_cons, hs, h3]

/-!
## Characterizations of the endpoint transitions
-/

theorem chat_proposal (providers : List Provider) (fm : String → Option String)
    (jl : String → Option Json) (st : ServerState) (it m u : String) (td : ToolData)
    (h : (process_query_with_auth providers fm jl it m).toolData = some td) :
    chat providers fm jl st it m u =
      (⟨(process_query_with_auth providers fm jl it m).reply, true, some st.nextToken,
        (process_query_with_auth providers fm jl it m).toolCalls⟩,
       { pending := insertPending st.pending st.nextToken
           { td with user_session_id := u },
         history := appendHist (ensureHist st.history u) u ⟨"user", m⟩,
         nextToken := st.nextToken + 1 }) := by
  unfold chat
  simp only [h]

theorem chat_answer (providers : List Provider) (fm : String → Option String)
    (jl : String → Option Json) (st : ServerState) (it m u : String)
    (h : (process_query_with_auth providers fm jl it m).toolData = none) :
    chat providers fm jl st it m u =
      (⟨(process_query_with_auth providers fm jl it m).reply, false, none,
        (process_query_with_auth providers fm jl it m).toolCalls⟩,
       { pending := st.pending,
         history := appendHist (appendHist (ensureHist st.history u) u ⟨"user", m⟩) u
           ⟨"assistant", (process_query_with_auth providers fm jl it m).reply⟩,
         nextToken := st.nextToken + 1 }) := by
  unfold chat
  simp only [h]

theorem authorize_notFound (llm : LLMRequest → String) (providers : List Provider)
    (st : ServerState) (token : Nat) (a : Bool)
    (h : lookupPending st.pending token = none) :
    authorize_tool llm providers st token a = (⟨.notFound, [], []⟩, st) := by
  unfold authorize_tool
  simp only [h]

theorem authorize_deny (llm : LLMRequest → String) (providers : List Provider)
    (st : ServerState) (token : Nat) (td : ToolData)
    (h : lookupPending st.pending token = some td) :
    authorize_tool llm providers st token false =
      (⟨.reply deniedMsg, [], []⟩,
       { st with pending := removePending st.pending token,
                 history := appendHist st.history td.user_session_id
                   ⟨"assistant", deniedMsg⟩ }) := by
  unfold authorize_tool
  simp only [h]
  rfl

theorem authorize_approve (llm : LLMRequest → String) (providers : List Provider)
    (st : ServerState) (token : Nat) (td : ToolData)
    (h : lookupPending st.pending token = some td) :
    authorize_tool llm providers st token true =
      (⟨.reply (execute_tool_call llm providers td.tool_name td.tool_args td.query).reply,
        (execute_tool_call llm providers td.tool_name td.tool_args td.query).toolCalls,
        (execute_tool_call llm providers td.tool_name td.tool_args td.query).modelRequests⟩,
       { st with pending := removePending st.pending token,
                 history := appendHist st.history td.user_session_id
                   ⟨"assistant",
                    (execute_tool_call llm providers td.tool_name td.tool_args td.query).reply⟩ }) := by
  unfold authorize_tool
  simp only [h]
  rfl

/-!
## Token freshness: a consumed token never returns to the pending set
-/

theorem chat_state_shape (providers : List Provider) (fm : String → Option String)
    (jl : String → Option Json) (st : ServerState) (it m u : String) :
    (chat providers fm jl st it m u).2.nextToken = st.nextToken + 1 ∧
    ((chat providers fm jl st it m u).2.pending = st.pending ∨
     ∃ td, (chat providers fm jl st it m u).2.pending =
       insertPending st.pending st.nextToken td) := by
  cases h : (process_query_with_auth providers fm jl it m).toolData with
  | none => rw [chat_answer providers fm jl st it m u h]; exact ⟨rfl, Or.inl rfl⟩
  | some td =>
      rw [chat_proposal providers fm jl st it m u td h]
      exact ⟨rfl, Or.inr ⟨_, rfl⟩⟩

theorem authorize_state_shape (llm : LLMRequest → String) (providers : List Provider)
    (st : ServerState) (token : Nat) (a : Bool) :
    (authorize_tool llm providers st token a).2.nextToken = st.nextToken ∧
    ((authorize_tool llm providers st token a).2.pending = st.pending ∨
     (authorize_tool llm providers st token a).2.pending =
       removePending st.pending token) := by
  cases h : lookupPending st.pending token with
  | none => rw [authorize_notFound llm providers st token a h]; exact ⟨rfl, Or.inl rfl⟩
  | some td =>
      cases a with
      | false => rw [authorize_deny llm providers st token td h]; exact ⟨rfl, Or.inr rfl⟩
      | true => rw [authorize_approve llm providers st token td h]; exact ⟨rfl, Or.inr rfl⟩

theorem gone_runStep (providers : List Provider) (fm : String → Option String)
    (jl : String → Option Json) (llm : LLMRequest → String)
    (st : ServerState) (s : Step) (t : Nat)
    (hlt : t < st.nextToken) (hnone : lookupPending st.pending t = none) :
    t < (runStep providers fm jl llm st s).nextToken ∧
    lookupPending (runStep providers fm jl llm st s).pending t = none := by
  cases s with
  | chatStep it m u =>
      have hs := chat_state_shape providers fm jl st it m u
      unfold runStep
      constructor
      · rw [hs.1]; omega
      · rcases hs.2 with hp | ⟨td, hp⟩
        · rw [hp]; exact hnone
        · rw [hp, lookupPending_insert]
          have : t ≠ st.nextToken := by omega
          rw [if_neg this]
          exact hnone
  | authStep tok a =>
      have hs := authorize_state_shape llm providers st tok a
      unfold runStep
      constructor
      · rw [hs.1]; exact hlt
      · rcases hs.2 with hp | hp
        · rw [hp]; exact hnone
        · rw [hp, lookupPending_remove]
          by_cases h : t = tok
          · rw [if_pos h]
          · rw [if_neg h]; exact hnone

theorem gone_runSteps (providers : List Provider) (fm : String → Option String)
    (jl : String → Option Json) (llm : LLMRequest → String)
    (st : ServerState) (steps : List Step) (t : Nat)
    (hlt : t < st.nextToken) (hnone : lookupPending st.pending t = none) :
    t < (runSteps providers fm jl llm st steps).nextToken ∧
    lookupPending (runSteps providers fm jl llm st steps).pending t = none := by
  induction steps generalizing st with
  | nil => exact ⟨hlt, hnone⟩
  | cons s rest ih =>
      have h1 := gone_runStep providers fm jl llm st s t hlt hnone
      exact ih (runStep providers fm jl llm st s) h1.1 h1.2

theorem chat_requestToken (providers : List Provider) (fm : String → Option String)
    (jl : String → Option Json) (st : ServerState) (it m u : String) (t : Nat)
    (h : (chat providers fm jl st it m u).1.requestToken = some t) :
    t = st.nextToken ∧
    ∃ td, (process_query_with_auth providers fm jl it m).toolData = some td := by
  cases htd : (process_query_with_auth providers fm jl it m).toolData with
  | none =>
      rw [chat_answer providers fm jl st it m u htd] at h
      exact absurd h (by simp)
  | some td =>
      rw [chat_proposal providers fm jl st it m u td htd] at h
      exact ⟨(Option.some_inj.mp h).symm, td, rfl⟩

theorem authorize_pending_removed (llm : LLMRequest → String)
    (providers : List Provider) (st : ServerState) (token : Nat) (td : ToolData)
    (a : Bool) (h : lookupPending st.pending token = some td) :
    (authorize_tool llm providers st token a).2.pending =
      removePending st.pending token := by
  cases a with
  | false => rw [authorize_deny llm providers st token td h]
  | true => rw [authorize_approve llm providers st token td h]

/-!
## Claims about the Authorization Gate and the Planner
-/

/-- Shared concrete fixtures for witnesses. -/
def wTd : ToolData := ⟨Json.str "search_flights", Json.obj [], "find flights", "sess-1"⟩

/-- Shared concrete server state: one pending proposal under token 0. -/
def wSt : ServerState := ⟨[(0, wTd)], [("sess-1", [])], 1⟩

/-- Trivial model oracle. -/
def wLLM : LLMRequest → String := fun _ => "ok"

/-- Fence oracle that finds no fenced block. -/
def wFM : String → Option String := fun _ => none

/-- json.loads oracle that fails on everything. -/
def wJL : String → Option Json := fun _ => none

/-- C1: resolving a pending proposal consumes its request token exactly once.
The first `/authorize_tool` call with a token in the pending set removes that
token and acts on the stored proposal (denial reply, or the Executor's reply
for that proposal); afterwards, no matter what further `/chat` and
`/authorize_tool` requests run, every later call with the same token takes
the 404 `Session not found` path and leaves the state unchanged — the token
never resolves twice. -/
theorem token_resolves_exactly_once (providers : List Provider)
    (fm : String → Option String) (jl : String → Option Json)
    (llm : LLMRequest → String) (st : ServerState) (token : Nat) (td : ToolData)
    (authorized : Bool)
    (hpend : lookupPending st.pending token = some td)
    (hfresh : ∀ kv ∈ st.pending, kv.1 < st.nextToken) :
    (authorize_tool llm providers st token authorized).1.result =
      .reply (if authorized
        then (execute_tool_call llm providers td.tool_name td.tool_args td.query).reply
        else deniedMsg) ∧
    lookupPending (authorize_tool llm providers st token authorized).2.pending token
      = none ∧
    ∀ steps : List Step, ∀ a2 : Bool,
      authorize_tool llm providers
        (runSteps providers fm jl llm
          (authorize_tool llm providers st token authorized).2 steps) token a2 =
      (⟨.notFound, [], []⟩,
       runSteps providers fm jl llm
         (authorize_tool llm providers st token authorized).2 steps) := by
  have hlt : token < st.nextToken := by
    rcases Option.map_eq_some'.mp hpend with ⟨kv, hkv, _⟩
    have hmem := List.mem_of_find?_eq_some hkv
    have hpred := List.find?_some hkv
    have : kv.1 = token := by simpa using hpred
    have := hfresh kv hmem
    omega
  have hrem : (authorize_tool llm providers st token authorized).2.pending =
      removePending st.pending token :=
    authorize_pending_removed llm providers st token td authorized hpend
  have hgone : lookupPending
      (authorize_tool llm providers st token authorized).2.pending token = none := by
    rw [hrem, lookupPending_remove, if_pos rfl]
  have hlt1 : token < (authorize_tool llm providers st token authorized).2.nextToken := by
    rw [(authorize_state_shape llm providers st token authorized).1]
    exact hlt
  refine ⟨?_, hgone, ?_⟩
  · cases authorized with
    | false => rw [authorize_deny llm providers st token td hpend]; rfl
    | true => rw [authorize_approve llm providers st token td hpend]; rfl
  · intro steps a2
    have h2 := gone_runSteps providers fm jl llm
      (authorize_tool llm providers st token authorized).2 steps token hlt1 hgone
    exact authorize_notFound llm providers _ token a2 h2.2

/-- Witness for C1 at a concrete state: token 0 is pending, the denial call
consumes it, and after a further chat request a second resolve hits 404. -/
theorem token_resolves_exactly_once_witness :
    lookupPending wSt.pending 0 = some wTd ∧
    (authorize_tool wLLM [] wSt 0 false).1.result = .reply deniedMsg ∧
    lookupPending (authorize_tool wLLM [] wSt 0 false).2.pending 0 = none ∧
    (authorize_tool wLLM []
      (runSteps [] wFM wJL wLLM (authorize_tool wLLM [] wSt 0 false).2
        [Step.chatStep "hello" "hello" "sess-1"]) 0 true).1.result = .notFound := by
  have h := token_resolves_exactly_once [] wFM wJL wLLM wSt 0 wTd false rfl
    (by decide)
  refine ⟨rfl, by simpa using h.1, h.2.1, ?_⟩
  rw [h.2.2 [Step.chatStep "hello" "hello" "sess-1"] true]

/-- C6: denying a pending proposal never invokes the Executor — no MCP tool
connection is called and no model call is made — returns the denial reply,
and appends exactly one assistant entry noting the denial to the originating
session's conversation history, leaving every other session's history
unchanged. -/
theorem deny_never_executes (llm : LLMRequest → String) (providers : List Provider)
    (st : ServerState) (token : Nat) (td : ToolData) (hist : List Msg)
    (hpend : lookupPending st.pending token = some td)
    (hsess : lookupHist st.history td.user_session_id = some hist) :
    (authorize_tool llm providers st token false).1.toolCalls = [] ∧
    (authorize_tool llm providers st token false).1.modelRequests = [] ∧
    (authorize_tool llm providers st token false).1.result = .reply deniedMsg ∧
    lookupHist (authorize_tool llm providers st token false).2.history
        td.user_session_id
      = some (hist ++ [⟨"assistant", deniedMsg⟩]) ∧
    ∀ sid, sid ≠ td.user_session_id →
      lookupHist (authorize_tool llm providers st token false).2.history sid
        = lookupHist st.history sid := by
  rw [authorize_deny llm providers st token td hpend]
  refine ⟨rfl, rfl, rfl, ?_, ?_⟩
  · show lookupHist (appendHist st.history td.user_session_id
        ⟨"assistant", deniedMsg⟩) td.user_session_id = _
    rw [lookupHist_append, if_pos rfl, hsess]
    rfl
  · intro sid hne
    show lookupHist (appendHist st.history td.user_session_id
        ⟨"assistant", deniedMsg⟩) sid = _
    rw [lookupHist_append, if_neg hne]

/-- Witness for C6 at the concrete one-proposal state. -/
theorem deny_never_executes_witness :
    lookupPending wSt.pending 0 = some wTd ∧
    lookupHist wSt.history wTd.user_session_id = some [] ∧
    (authorize_tool wLLM [] wSt 0 false).1.toolCalls = [] ∧
    (authorize_tool wLLM [] wSt 0 false).1.modelRequests = [] ∧
    lookupHist (authorize_tool wLLM [] wSt 0 false).2.history "sess-1"
      = some [⟨"assistant", deniedMsg⟩] := by
  have h := deny_never_executes wLLM [] wSt 0 wTd [] rfl rfl
  exact ⟨rfl, rfl, h.1, h.2.1, by simpa using h.2.2.2.1⟩

/-- C7: two sequential proposals minted from the same user session token get
distinct fresh request tokens; resolving the second removes only its own
entry from the pending set — the first proposal's pending entry, and every
other token's entry, are left unchanged. -/
theorem fresh_tokens_and_frame (providers : List Provider)
    (fm : String → Option String) (jl : String → Option Json)
    (llm : LLMRequest → String) (st : ServerState)
    (it1 m1 it2 m2 u : String) (t1 t2 : Nat)
    (h1 : (chat providers fm jl st it1 m1 u).1.requestToken = some t1)
    (h2 : (chat providers fm jl (chat providers fm jl st it1 m1 u).2 it2 m2 u).1.requestToken
        = some t2) :
    t1 ≠ t2 ∧
    lookupPending
        (chat providers fm jl (chat providers fm jl st it1 m1 u).2 it2 m2 u).2.pending t1
      = lookupPending (chat providers fm jl st it1 m1 u).2.pending t1 ∧
    ∀ a : Bool,
      lookupPending
          (authorize_tool llm providers
            (chat providers fm jl (chat providers fm jl st it1 m1 u).2 it2 m2 u).2 t2 a).2.pending
          t2 = none ∧
      ∀ t, t ≠ t2 →
        lookupPending
            (authorize_tool llm providers
              (chat providers fm jl (chat providers fm jl st it1 m1 u).2 it2 m2 u).2 t2 a).2.pending
            t
          = lookupPending
              (chat providers fm jl (chat providers fm jl st it1 m1 u).2 it2 m2 u).2.pending t := by
  obtain ⟨ht1, td1, htd1⟩ := chat_requestToken providers fm jl st it1 m1 u t1 h1
  obtain ⟨ht2, td2, htd2⟩ := chat_requestToken providers fm jl
    (chat providers fm jl st it1 m1 u).2 it2 m2 u t2 h2
  have hnext1 : (chat providers fm jl st it1 m1 u).2.nextToken = st.nextToken + 1 :=
    (chat_state_shape providers fm jl st it1 m1 u).1
  have hne : t1 ≠ t2 := by omega
  have hst2 := chat_proposal providers fm jl (chat providers fm jl st it1 m1 u).2
    it2 m2 u td2 htd2
  have hpend2 : (chat providers fm jl (chat providers fm jl st it1 m1 u).2 it2 m2 u).2.pending
      = insertPending (chat providers fm jl st it1 m1 u).2.pending t2
          { td2 with user_session_id := u } := by
    rw [hst2, ht2]
  have hlook2 : lookupPending
      (chat providers fm jl (chat providers fm jl st it1 m1 u).2 it2 m2 u).2.pending t2
      = some { td2 with user_session_id := u } := by
    rw [hpend2, lookupPending_insert, if_pos rfl]
  refine ⟨hne, ?_, ?_⟩
  · rw [hpend2, lookupPending_insert, if_neg hne]
  · intro a
    have hrem := authorize_pending_removed llm providers
      (chat providers fm jl (chat providers fm jl st it1 m1 u).2 it2 m2 u).2 t2
      { td2 with user_session_id := u } a hlook2
    constructor
    · rw [hrem, lookupPending_remove, if_pos rfl]
    · intro t htne
      rw [hrem, lookupPending_remove, if_neg htne]

/-- A concrete connected provider for witnesses. -/
def wProvider : Provider :=
  ⟨"flightsearch", ["search_flights", "getflightbyid"], fun _ _ => .ok "result"⟩

/-- Fence oracle that always finds the candidate `CALL`. -/
def wFMfence : String → Option String := fun _ => some "CALL"

/-- json.loads oracle mapping `CALL` to a tool-call object. -/
def wJLtool : String → Option Json := fun s =>
  if s = "CALL" then some (Json.obj [("tool", Json.str "search_flights")]) else none

/-- Witness for C7: from the concrete state, two chats on session `sess-1`
mint tokens 1 and 2; denying token 2 leaves token 1 pending. -/
theorem fresh_tokens_and_frame_witness :
    (chat [wProvider] wFMfence wJLtool wSt "CALL" "q1" "sess-1").1.requestToken
      = some 1 ∧
    (chat [wProvider] wFMfence wJLtool
      (chat [wProvider] wFMfence wJLtool wSt "CALL" "q1" "sess-1").2
      "CALL" "q2" "sess-1").1.requestToken = some 2 ∧
    (1 : Nat) ≠ 2 ∧
    lookupPending
      (chat [wProvider] wFMfence wJLtool
        (chat [wProvider] wFMfence wJLtool wSt "CALL" "q1" "sess-1").2
        "CALL" "q2" "sess-1").2.pending 1
      = lookupPending
          (chat [wProvider] wFMfence wJLtool wSt "CALL" "q1" "sess-1").2.pending 1 ∧
    lookupPending
      (authorize_tool wLLM [wProvider]
        (chat [wProvider] wFMfence wJLtool
          (chat [wProvider] wFMfence wJLtool wSt "CALL" "q1" "sess-1").2
          "CALL" "q2" "sess-1").2 2 false).2.pending 2 = none := by
  have h1 : (chat [wProvider] wFMfence wJLtool wSt "CALL" "q1" "sess-1").1.requestToken
      = some 1 := by rfl
  have h2 : (chat [wProvider] wFMfence wJLtool
      (chat [wProvider] wFMfence wJLtool wSt "CALL" "q1" "sess-1").2
      "CALL" "q2" "sess-1").1.requestToken = some 2 := by rfl
  have h := fresh_tokens_and_frame [wProvider] wFMfence wJLtool wLLM wSt
    "CALL" "q1" "CALL" "q2" "sess-1" 1 2 h1 h2
  exact ⟨h1, h2, h.1, h.2.1, (h.2.2 false).1⟩

/-- C5: the submit path never executes a tool.  `process_query_with_auth`
makes no MCP tool invocation, and its outcome is either a direct answer with
`needs_authorization` false and no stored proposal, or a proposal with
`needs_authorization` true; the `/chat` endpoint built on it makes no tool
invocation either. -/
theorem planner_never_executes (providers : List Provider)
    (fm : String → Option String) (jl : String → Option Json)
    (st : ServerState) (it q m u : String) :
    (process_query_with_auth providers fm jl it q).toolCalls = [] ∧
    ((process_query_with_auth providers fm jl it q).needs_authorization = true ∧
       (process_query_with_auth providers fm jl it q).toolData ≠ none ∨
     (process_query_with_auth providers fm jl it q).needs_authorization = false ∧
       (process_query_with_auth providers fm jl it q).toolData = none) ∧
    (chat providers fm jl st it m u).1.toolCalls = [] := by
  have hmain : (process_query_with_auth providers fm jl it q).toolCalls = [] ∧
      ((process_query_with_auth providers fm jl it q).needs_authorization = true ∧
         (process_query_with_auth providers fm jl it q).toolData ≠ none ∨
       (process_query_with_auth providers fm jl it q).needs_authorization = false ∧
         (process_query_with_auth providers fm jl it q).toolData = none) := by
    unfold process_query_with_auth
    split
    · exact ⟨rfl, Or.inr ⟨rfl, rfl⟩⟩
    · split
      · exact ⟨rfl, Or.inr ⟨rfl, rfl⟩⟩
      · rename_i kvs _
        unfold planDecision
        split
        · exact ⟨rfl, Or.inr ⟨rfl, rfl⟩⟩
        · split
          · exact ⟨rfl, Or.inr ⟨rfl, rfl⟩⟩
          · exact ⟨rfl, Or.inl ⟨rfl, by simp⟩⟩
  refine ⟨hmain.1, hmain.2, ?_⟩
  have hcalls : (process_query_with_auth providers fm jl it m).toolCalls = [] := by
    unfold process_query_with_auth
    split
    · rfl
    · split
      · rfl
      · unfold planDecision
        split
        · rfl
        · split <;> rfl
  cases htd : (process_query_with_auth providers fm jl it m).toolData with
  | none => rw [chat_answer providers fm jl st it m u htd]; exact hcalls
  | some td => rw [chat_proposal providers fm jl st it m u td htd]; exact hcalls

/-!
## Claim C3: tolerant JSON extraction and the submit decision
-/

theorem pyGet_append_ne (kvs : List (String × Json)) (k : String) (v : Json)
    (key : String) (h : k ≠ key) :
    pyGet (kvs ++ [(k, v)]) key = pyGet kvs key := by
  unfold pyGet
  rw [List.reverse_append]
  have hk : ((k, v).1 == key) = false := by
    simp only [beq_eq_false_iff_ne, ne_eq]
    exact h
  simp [List.find?_cons, hk]

theorem pyArgs_append_ne (kvs : List (String × Json)) (k : String) (v : Json)
    (h : k ≠ "args") :
    pyArgs (kvs ++ [(k, v)]) = pyArgs kvs := by
  unfold pyArgs
  rw [pyGet_append_ne kvs k v "args" h]

theorem planDecision_answer (kvs : List (String × Json)) (it q : String)
    (h : pyGet kvs "tool" = none) :
    planDecision kvs it q = ⟨it, false, none, []⟩ := by
  unfold planDecision
  split
  · rfl
  · rw [h]

theorem planDecision_tool (kvs : List (String × Json)) (it q : String) (v : Json)
    (h : pyGet kvs "tool" = some v) :
    planDecision kvs it q =
      ⟨authRequestMsg v (pyArgs kvs), true, some ⟨v, pyArgs kvs, q, ""⟩, []⟩ := by
  unfold planDecision
  split
  · rename_i hemp
    exfalso
    cases kvs with
    | nil => simp [pyGet] at h
    | cons x xs => simp at hemp
  · rw [h]

theorem process_unfold (providers : List Provider) (fm : String → Option String)
    (jl : String → Option Json) (it q : String) (hne : providers ≠ []) :
    process_query_with_auth providers fm jl it q =
      match extract_json fm jl it with
      | none => ⟨it, false, none, []⟩
      | some kvs => planDecision kvs it q := by
  unfold process_query_with_auth
  rw [if_neg (by simpa [List.isEmpty_iff] using hne)]

/-- C3: for every model response string, JSON extraction parses the fenced
candidate when the fence regex finds one and the whole trimmed response
otherwise; any parse failure, non-object result (both collapsed by
`jsonObjFields`), or object lacking a `tool` key makes the submit path
return the raw response as the final answer with `needs_authorization`
false; when `tool` is present its value is the proposed name, `args`
defaults to an empty mapping, and unrecognized keys are ignored. -/
theorem planner_json_extraction (fm : String → Option String)
    (jl : String → Option Json) (providers : List Provider) (text query : String)
    (hne : providers ≠ []) :
    (∀ c, fm text = some c → extract_json fm jl text = jsonObjFields (jl c)) ∧
    (fm text = none → extract_json fm jl text = jsonObjFields (jl text.trim)) ∧
    (extract_json fm jl text = none →
      process_query_with_auth providers fm jl text query = ⟨text, false, none, []⟩) ∧
    (∀ kvs, extract_json fm jl text = some kvs → pyGet kvs "tool" = none →
      process_query_with_auth providers fm jl text query = ⟨text, false, none, []⟩) ∧
    (∀ kvs v, extract_json fm jl text = some kvs → pyGet kvs "tool" = some v →
      process_query_with_auth providers fm jl text query =
        ⟨authRequestMsg v (pyArgs kvs), true, some ⟨v, pyArgs kvs, query, ""⟩, []⟩ ∧
      (pyGet kvs "args" = none → pyArgs kvs = Json.obj [])) ∧
    (∀ kvs (k : String) (v : Json), k ≠ "tool" → k ≠ "args" →
      planDecision (kvs ++ [(k, v)]) text query = planDecision kvs text query) := by
  refine ⟨?_, ?_, ?_, ?_, ?_, ?_⟩
  · intro c hc
    rw [extract_json_eq, hc]
    rfl
  · intro hc
    rw [extract_json_eq, hc]
    rfl
  · intro hx
    rw [process_unfold providers fm jl text query hne, hx]
  · intro kvs hx htool
    rw [process_unfold providers fm jl text query hne, hx]
    exact planDecision_answer kvs text query htool
  · intro kvs v hx htool
    constructor
    · rw [process_unfold providers fm jl text query hne, hx]
      exact planDecision_tool kvs text query v htool
    · intro hargs
      unfold pyArgs
      rw [hargs]
      rfl
  · intro kvs k v hk1 hk2
    cases htool : pyGet kvs "tool" with
    | none =>
        rw [planDecision_answer kvs text query htool]
        rw [planDecision_answer (kvs ++ [(k, v)]) text query
          (by rw [pyGet_append_ne kvs k v "tool" hk1]; exact htool)]
    | some v' =>
        rw [planDecision_tool kvs text query v' htool]
        rw [planDecision_tool (kvs ++ [(k, v)]) text query v'
          (by rw [pyGet_append_ne kvs k v "tool" hk1]; exact htool)]
        rw [pyArgs_append_ne kvs k v hk2]

/-- Witness for C3: a concrete unparseable response comes back verbatim as
the answer, and a concrete tool object proposes that tool. -/
theorem planner_json_extraction_witness :
    ([wProvider] : List Provider).length = 1 ∧
    extract_json wFM wJL "hi there" = none ∧
    process_query_with_auth [wProvider] wFM wJL "hi there" "hi there"
      = ⟨"hi there", false, none, []⟩ ∧
    process_query_with_auth [wProvider] wFMfence wJLtool "CALL" "q"
      = ⟨authRequestMsg (Json.str "search_flights") (Json.obj []), true,
         some ⟨Json.str "search_flights", Json.obj [], "q", ""⟩, []⟩ := by
  have h1 := planner_json_extraction wFM wJL [wProvider] "hi there" "hi there"
    (by simp)
  have h2 := planner_json_extraction wFMfence wJLtool [wProvider] "CALL" "q"
    (by simp)
  have hx2 : extract_json wFMfence wJLtool "CALL"
      = some [("tool", Json.str "search_flights")] := by rfl
  have htool : pyGet [("tool", Json.str "search_flights")] "tool"
      = some (Json.str "search_flights") := by rfl
  refine ⟨rfl, rfl, h1.2.2.1 rfl, ?_⟩
  have := (h2.2.2.2.2.1 [("tool", Json.str "search_flights")]
    (Json.str "search_flights") hx2 htool).1
  rw [this]
  rfl

/-!
## Claims C4 and C2: tool resolution and the not-found path
-/

theorem catalogMatch (p : Provider) (n : String) :
    (p.catalog.any fun t => jsonEqStr (Json.str n) t) = true ↔ n ∈ p.catalog := by
  rw [List.any_eq_true]
  constructor
  · rintro ⟨t, ht, he⟩
    have : n = t := by simpa [jsonEqStr] using he
    rwa [this]
  · intro h
    exact ⟨n, h, by simp [jsonEqStr]⟩

theorem execute_not_found (llm : LLMRequest → String) (providers : List Provider)
    (toolName args : Json) (q : String) (hne : providers ≠ [])
    (h : findProvider providers toolName = none) :
    execute_tool_call llm providers toolName args q
      = ⟨toolNotFoundMsg toolName, [], []⟩ := by
  unfold execute_tool_call
  rw [if_neg (by simpa [List.isEmpty_iff] using hne), h]

theorem execute_call_error (llm : LLMRequest → String) (providers : List Provider)
    (toolName args : Json) (q : String) (p : Provider) (e : String)
    (hne : providers ≠ []) (hp : findProvider providers toolName = some p)
    (he : p.call toolName args = .error e) :
    execute_tool_call llm providers toolName args q
      = ⟨llm (LLMRequest.explainToolError q toolName args e), [(toolName, args)],
         [LLMRequest.explainToolError q toolName args e]⟩ := by
  unfold execute_tool_call
  rw [if_neg (by simpa [List.isEmpty_iff] using hne)]
  simp only [hp, he]

/-- C4: tool resolution walks the live catalogs in registration order with
exact, case-sensitive string matching: a name owned by exactly one provider
resolves to that provider; a name owned by several resolves to the
first-registered one; resolution success implies exact catalog membership
(no fuzzy matching); a name owned by none fails, and the Executor then takes
the tool-not-found path. -/
theorem tool_router_exact_first_match (providers : List Provider) (n : String)
    (llm : LLMRequest → String) (args : Json) (q : String) :
    (∀ p ∈ providers, n ∈ p.catalog →
      (∀ p' ∈ providers, n ∈ p'.catalog → p' = p) →
      findProvider providers (Json.str n) = some p) ∧
    (∀ l1 p l2, providers = l1 ++ p :: l2 → n ∈ p.catalog →
      (∀ p' ∈ l1, n ∉ p'.catalog) →
      findProvider providers (Json.str n) = some p) ∧
    (∀ p, findProvider providers (Json.str n) = some p →
      n ∈ p.catalog ∧ p ∈ providers) ∧
    ((∀ p ∈ providers, n ∉ p.catalog) →
      findProvider providers (Json.str n) = none ∧
      (providers ≠ [] →
        execute_tool_call llm providers (Json.str n) args q
          = ⟨toolNotFoundMsg (Json.str n), [], []⟩)) := by
  have hnone : ∀ ps : List Provider, (∀ p ∈ ps, n ∉ p.catalog) →
      findProvider ps (Json.str n) = none := by
    intro ps
    induction ps with
    | nil => intro _; rfl
    | cons h rest ih =>
        intro hall
        unfold findProvider
        rw [if_neg ?_]
        · exact ih fun p hp => hall p (List.mem_cons_of_mem h hp)
        · intro hany
          exact hall h (List.mem_cons_self h rest) ((catalogMatch h n).mp hany)
  refine ⟨?_, ?_, ?_, ?_⟩
  · induction providers with
    | nil => intro p hp; exact absurd hp (List.not_mem_nil p)
    | cons h rest ih =>
        intro p hp hcat huniq
        unfold findProvider
        by_cases hh : (h.catalog.any fun t => jsonEqStr (Json.str n) t) = true
        · rw [if_pos hh]
          have := huniq h (List.mem_cons_self h rest) ((catalogMatch h n).mp hh)
          rw [this]
        · rw [if_neg hh]
          have hph : p ≠ h := by
            intro he
            exact hh ((catalogMatch h n).mpr (he ▸ hcat))
          have hpr : p ∈ rest := by
            rcases List.mem_cons.mp hp with h1 | h1
            · exact absurd h1 hph
            · exact h1
          exact ih p hpr hcat
            (fun p' hp' hc' => huniq p' (List.mem_cons_of_mem h hp') hc')
  · intro l1 p l2 hps hcat hl1
    subst hps
    induction l1 with
    | nil =>
        rw [List.nil_append]
        unfold findProvider
        rw [if_pos ((catalogMatch p n).mpr hcat)]
    | cons a l1' ih =>
        rw [List.cons_append]
        unfold findProvider
        rw [if_neg ?_]
        · exact ih (fun p' hp' => hl1 p' (List.mem_cons_of_mem a hp'))
        · intro hany
          exact hl1 a (List.mem_cons_self a l1') ((catalogMatch a n).mp hany)
  · induction providers with
    | nil => intro p hp; exact absurd hp (by simp [findProvider])
    | cons h rest ih =>
        intro p hp
        unfold findProvider at hp
        by_cases hh : (h.catalog.any fun t => jsonEqStr (Json.str n) t) = true
        · rw [if_pos hh] at hp
          have : h = p := Option.some_inj.mp hp
          subst this
          exact ⟨(catalogMatch h n).mp hh, List.mem_cons_self h rest⟩
        · rw [if_neg hh] at hp
          have := ih p hp
          exact ⟨this.1, List.mem_cons_of_mem h this.2⟩
  · intro hall
    refine ⟨hnone providers hall, fun hne => ?_⟩
    exact execute_not_found llm providers (Json.str n) args q hne
      (hnone providers hall)

/-- A second connected provider owning the booking tools, for witnesses. -/
def wBookProvider : Provider :=
  ⟨"flightbooking", ["book_flight", "hold_flight"],
   fun _ _ => .error "ProviderError: seat unavailable"⟩

/-- Witness for C4: with the two concrete providers registered in order,
`search_flights` resolves to the first, `book_flight` to the second, and an
unknown name resolves to none and yields the not-found reply. -/
theorem tool_router_exact_first_match_witness :
    findProvider [wProvider, wBookProvider] (Json.str "search_flights")
      = some wProvider ∧
    findProvider [wProvider, wBookProvider] (Json.str "book_flight")
      = some wBookProvider ∧
    findProvider [wProvider, wBookProvider] (Json.str "teleport") = none ∧
    execute_tool_call wLLM [wProvider, wBookProvider] (Json.str "teleport")
        (Json.obj []) "q"
      = ⟨toolNotFoundMsg (Json.str "teleport"), [], []⟩ := by
  have huniq : ∀ p' ∈ [wProvider, wBookProvider],
      "search_flights" ∈ p'.catalog → p' = wProvider := by
    intro p' hp' hc'
    rcases List.mem_cons.mp hp' with h | h
    · exact h
    · rcases List.mem_cons.mp h with h2 | h2
      · exfalso
        rw [h2] at hc'
        revert hc'
        decide
      · exact absurd h2 (List.not_mem_nil p')
  have h1 := (tool_router_exact_first_match [wProvider, wBookProvider]
    "search_flights" wLLM (Json.obj []) "q").1 wProvider (by simp)
    (by decide) huniq
  have h2 := (tool_router_exact_first_match [wProvider, wBookProvider]
    "book_flight" wLLM (Json.obj []) "q").2.1 [wProvider] wBookProvider []
    rfl (by decide) (by decide)
  have h3 := (tool_router_exact_first_match [wProvider, wBookProvider]
    "teleport" wLLM (Json.obj []) "q").2.2.2 (by decide)
  exact ⟨h1, h2, h3.1, h3.2 (by simp)⟩

/-- Counterexample for C2 as stated: approving a proposal for a tool that no
connected provider owns makes `execute_tool_call` return the fixed not-found
string with zero model calls — the reply is not synthesized via a model
call. -/
theorem executor_not_found_no_model_call :
    (wProvider.catalog.contains "book_flight") = false ∧
    (execute_tool_call wLLM [wProvider] (Json.str "book_flight") (Json.obj [])
      "book it").modelRequests = [] ∧
    (execute_tool_call wLLM [wProvider] (Json.str "book_flight") (Json.obj [])
      "book it").reply = toolNotFoundMsg (Json.str "book_flight") := by
  exact ⟨by decide, rfl, rfl⟩

/-- C2 amended: when an approved proposal names a tool owned by no connected
provider, the Executor returns the fixed plain-text message `Tool '...' not
found in any connected MCP server.` — no raw exception surfaces, but no
model call is made and no tool is invoked; a model-synthesized explanation
is produced only when an owning provider's invocation raises. -/
theorem executor_not_found_behaviour (llm : LLMRequest → String)
    (providers : List Provider) (toolName args : Json) (q : String)
    (hne : providers ≠ [])
    (hnone : findProvider providers toolName = none) :
    execute_tool_call llm providers toolName args q
      = ⟨toolNotFoundMsg toolName, [], []⟩ ∧
    (∀ providers2 p e, providers2 ≠ [] →
      findProvider providers2 toolName = some p →
      p.call toolName args = .error e →
      execute_tool_call llm providers2 toolName args q
        = ⟨llm (LLMRequest.explainToolError q toolName args e), [(toolName, args)],
           [LLMRequest.explainToolError q toolName args e]⟩) := by
  refine ⟨execute_not_found llm providers toolName args q hne hnone, ?_⟩
  intro providers2 p e hne2 hp he
  exact execute_call_error llm providers2 toolName args q p e hne2 hp he

/-- Witness for the amended C2: the not-found path at a concrete catalog, and
the model-explained path when the owning provider raises. -/
theorem executor_not_found_behaviour_witness :
    findProvider [wProvider] (Json.str "book_flight") = none ∧
    execute_tool_call wLLM [wProvider] (Json.str "book_flight") (Json.obj []) "q"
      = ⟨toolNotFoundMsg (Json.str "book_flight"), [], []⟩ ∧
    execute_tool_call wLLM [wBookProvider] (Json.str "book_flight")
        (Json.obj []) "q"
      = ⟨wLLM (LLMRequest.explainToolError "q" (Json.str "book_flight")
            (Json.obj []) "ProviderError: seat unavailable"),
         [(Json.str "book_flight", Json.obj [])],
         [LLMRequest.explainToolError "q" (Json.str "book_flight")
            (Json.obj []) "ProviderError: seat unavailable"]⟩ := by
  have h := executor_not_found_behaviour wLLM [wProvider] (Json.str "book_flight")
    (Json.obj []) "q" (by simp) (by rfl)
  exact ⟨rfl, h.1, h.2 [wBookProvider] wBookProvider
    "ProviderError: seat unavailable" (by simp) rfl rfl⟩

/-!
## Claim C8: the flight-search cache is a bounded LRU
-/

theorem move_to_end_length_le (c : Cache) (k : CacheKey) :
    (move_to_end c k).length ≤ c.length := by
  unfold move_to_end
  cases hf : c.find? (fun e => e.1 == k) with
  | none => exact Nat.le_refl _
  | some kv =>
      rw [List.length_append, List.length_singleton]
      have hmem := List.mem_of_find?_eq_some hf
      have hpred := List.find?_some hf
      have : (c.filter (fun e => !(e.1 == k))).length < c.length := by
        rw [List.length_filter_lt_length_iff_exists]
        exact ⟨kv, hmem, by simp [hpred]⟩
      omega

theorem cacheMember_tail_false (c : Cache) (k : CacheKey)
    (h : cacheMember c k = false) : cacheMember c.tail k = false := by
  unfold cacheMember at *
  rw [Bool.eq_false_iff, Ne, List.any_eq_true] at *
  rintro ⟨e, he, hp⟩
  exact h ⟨e, List.mem_of_mem_tail he, hp⟩

theorem add_to_cache_full_new (c : Cache) (k : CacheKey) (v : String)
    (hfull : MAX_CACHE_SIZE ≤ c.length) (hnew : cacheMember c k = false) :
    _add_to_cache c k v = c.tail ++ [(k, v)] := by
  have hcond : MAX_CACHE_SIZE ≤ c.length ∧ cacheMember c k = false := ⟨hfull, hnew⟩
  have htail : ¬ (cacheMember c.tail k = true) := by
    rw [cacheMember_tail_false c k hnew]
    simp
  unfold _add_to_cache
  rw [if_pos hcond, if_neg htail]

theorem update_map_fst (c : Cache) (k : CacheKey) (v : String) :
    (c.map (fun e => if e.1 == k then (k, v) else e)).map Prod.fst
      = c.map Prod.fst := by
  induction c with
  | nil => rfl
  | cons e rest ih =>
      simp only [List.map_cons, ih]
      by_cases h : (e.1 == k) = true
      · have he : e.1 = k := by simpa using h
        simp [h, he]
      · have he : ¬ (e.1 = k) := by simpa using h
        simp [h, he]

theorem add_to_cache_keys_of_member (c : Cache) (k : CacheKey) (v : String)
    (hmem : cacheMember c k = true) :
    (_add_to_cache c k v).length = c.length ∧
    (_add_to_cache c k v).map Prod.fst = c.map Prod.fst := by
  have hcond : ¬ (MAX_CACHE_SIZE ≤ c.length ∧ cacheMember c k = false) := by
    rintro ⟨-, h2⟩
    rw [hmem] at h2
    cases h2
  unfold _add_to_cache
  rw [if_neg hcond, if_pos hmem]
  exact ⟨List.length_map _ _, update_map_fst c k v⟩

theorem add_to_cache_length_le (c : Cache) (k : CacheKey) (v : String)
    (hc : c.length ≤ MAX_CACHE_SIZE) :
    (_add_to_cache c k v).length ≤ MAX_CACHE_SIZE := by
  by_cases hmem : cacheMember c k = true
  · rw [(add_to_cache_keys_of_member c k v hmem).1]
    exact hc
  · have hmem' : cacheMember c k = false := by
      rwa [Bool.not_eq_true] at hmem
    by_cases hfull : MAX_CACHE_SIZE ≤ c.length
    · rw [add_to_cache_full_new c k v hfull hmem']
      rw [List.length_append, List.length_singleton, List.length_tail]
      have hpos : 0 < c.length := by
        have hm : 0 < MAX_CACHE_SIZE := by decide
        omega
      omega
    · have hcond : ¬ (MAX_CACHE_SIZE ≤ c.length ∧ cacheMember c k = false) := by
        rintro ⟨h1, -⟩
        exact hfull h1
      unfold _add_to_cache
      rw [if_neg hcond, if_neg hmem]
      rw [List.length_append, List.length_singleton]
      omega

theorem search_step_length_le (c : Cache) (k : CacheKey) (ev : SearchEvent)
    (hc : c.length ≤ MAX_CACHE_SIZE) :
    (search_step c k ev).length ≤ MAX_CACHE_SIZE := by
  cases ev with
  | invalid => simpa [search_step] using hc
  | apiFail =>
      simp only [search_step]
      by_cases h : cacheMember c k = true
      · rw [if_pos h]
        exact Nat.le_trans (move_to_end_length_le c k) hc
      · rw [if_neg h]
        exact hc
  | apiOk r =>
      simp only [search_step]
      by_cases h : cacheMember c k = true
      · rw [if_pos h]
        exact Nat.le_trans (move_to_end_length_le c k) hc
      · rw [if_neg h]
        exact add_to_cache_length_le c k r hc

/-- C8: the flight-search cache is bounded: along every sequence of
`search_flights` calls the cache keeps at most `MAX_CACHE_SIZE = 100`
entries; inserting a new key into a full cache evicts exactly the first
(least recently used) entry; writing an already-present key evicts nothing
(same length, same key sequence); and a cache hit moves its key to the
most-recently-used end. -/
theorem cache_bounded_lru (c : Cache) (k : CacheKey) (v : String)
    (steps : List (CacheKey × SearchEvent)) (r : String)
    (hc : c.length ≤ MAX_CACHE_SIZE) :
    MAX_CACHE_SIZE = 100 ∧
    (search_steps c steps).length ≤ MAX_CACHE_SIZE ∧
    (c.length = MAX_CACHE_SIZE → cacheMember c k = false →
      _add_to_cache c k v = c.tail ++ [(k, v)]) ∧
    (cacheMember c k = true →
      (_add_to_cache c k v).length = c.length ∧
      (_add_to_cache c k v).map Prod.fst = c.map Prod.fst) ∧
    (cacheMember c k = true → search_step c k (.apiOk r) = move_to_end c k) := by
  refine ⟨rfl, ?_, ?_, ?_, ?_⟩
  · unfold search_steps
    induction steps generalizing c with
    | nil => exact hc
    | cons s rest ih =>
        rw [List.foldl_cons]
        exact ih (search_step c s.1 s.2) (search_step_length_le c s.1 s.2 hc)
  · intro hfull hnew
    exact add_to_cache_full_new c k v (Nat.le_of_eq hfull.symm) hnew
  · intro hmem
    exact add_to_cache_keys_of_member c k v hmem
  · intro hmem
    simp only [search_step]
    rw [if_pos hmem]

/-- Witness for C8 on a concrete two-entry cache: a hit reorders, an
existing-key write evicts nothing, and a short run stays bounded. -/
theorem cache_bounded_lru_witness :
    ([(("ATH", "BCN", "2025-12-03"), "r1"), (("ATH", "LHR", "2025-12-04"), "r2")]
        : Cache).length ≤ MAX_CACHE_SIZE ∧
    cacheMember [(("ATH", "BCN", "2025-12-03"), "r1"),
        (("ATH", "LHR", "2025-12-04"), "r2")] ("ATH", "BCN", "2025-12-03") = true ∧
    (_add_to_cache [(("ATH", "BCN", "2025-12-03"), "r1"),
        (("ATH", "LHR", "2025-12-04"), "r2")] ("ATH", "BCN", "2025-12-03")
        "r3").length = 2 ∧
    search_step [(("ATH", "BCN", "2025-12-03"), "r1"),
        (("ATH", "LHR", "2025-12-04"), "r2")] ("ATH", "BCN", "2025-12-03")
        (.apiOk "r3")
      = move_to_end [(("ATH", "BCN", "2025-12-03"), "r1"),
          (("ATH", "LHR", "2025-12-04"), "r2")] ("ATH", "BCN", "2025-12-03") ∧
    (search_steps [(("ATH", "BCN", "2025-12-03"), "r1"),
        (("ATH", "LHR", "2025-12-04"), "r2")]
        [(("BCN", "MAD", "2025-12-05"), .apiOk "r4"),
         (("ATH", "BCN", "2025-12-03"), .apiFail)]).length ≤ MAX_CACHE_SIZE := by
  have h := cache_bounded_lru
    [(("ATH", "BCN", "2025-12-03"), "r1"), (("ATH", "LHR", "2025-12-04"), "r2")]
    ("ATH", "BCN", "2025-12-03") "r3"
    [(("BCN", "MAD", "2025-12-05"), .apiOk "r4"),
     (("ATH", "BCN", "2025-12-03"), .apiFail)] "r3" (by decide)
  refine ⟨by decide, by decide, ?_, h.2.2.2.2 (by decide), h.2.1⟩
  rw [(h.2.2.2.1 (by decide)).1]
  decide

/-!
## Claim C9: seat decrement / restoration round trip
-/

theorem findFlight_map_dec (l : List Flight) (fid : String) (n : Int) :
    (l.map (fun f => if f.id == fid then
        { f with available_seats := f.available_seats - n } else f)).find?
      (fun f => f.id == fid)
      = (l.find? (fun f => f.id == fid)).map
          (fun f => { f with available_seats := f.available_seats - n }) := by
  induction l with
  | nil => rfl
  | cons f rest ih =>
      obtain ⟨i, o, d, dt, a, pr, s⟩ := f
      by_cases h : (i == fid) = true
      · simp only [List.map_cons, List.find?, h, if_true, eq_self_iff_true,
          Option.map_some']
      · have hfalse : (i == fid) = false := by rwa [Bool.not_eq_true] at h
        simp only [List.map_cons, List.find?, hfalse, Bool.false_eq_true, if_false,
          ih]

theorem flights_restore (l : List Flight) (fid : String) (n : Int) :
    ((l.map (fun f => if f.id == fid then
        { f with available_seats := f.available_seats - n } else f)).map
      (fun f => if f.id == fid then
        { f with available_seats := f.available_seats + n } else f)) = l := by
  induction l with
  | nil => rfl
  | cons f rest ih =>
      obtain ⟨i, o, d, dt, a, pr, s⟩ := f
      simp only [List.map_cons, ih]
      by_cases h : (i == fid) = true
      · simp only [if_pos h]
        simp [Int.sub_add_cancel]
      · simp only [if_neg h]

/-- C9: with a flight holding at least `n` seats, `create_booking` with
`seats = n` decrements `available_seats` by exactly `n` and stores the
booking; `delete_booking` on the returned id removes the booking and restores
the flight table exactly; `create_booking` raises ValueError and leaves the
database untouched when the flight is missing (`Flight not found`) or has
fewer than `n` seats left (the insufficient-seats message). -/
theorem booking_seats_roundtrip (db : DB) (now : Int) (u fid nm em : String)
    (n : Int) (f : Flight)
    (hf : findFlight db fid = some f)
    (hn : n ≤ f.available_seats)
    (hfresh : ∀ b ∈ db.bookings, (b.id == mkBookingId db.nextBookingIdx) = false) :
    (∃ row db1,
      create_booking db now u fid nm em n "CONFIRMED" none = (.ok row, db1) ∧
      row.seats = n ∧ row.flight_id = fid ∧ row.status = "CONFIRMED" ∧
      findFlight db1 fid = some { f with available_seats := f.available_seats - n } ∧
      db1.bookings = db.bookings ++ [row] ∧
      delete_booking db1 row.id =
        (true, { db1 with bookings := db.bookings, flights := db.flights })) ∧
    (∀ fid2 n2 s hm, findFlight db fid2 = none →
      create_booking db now u fid2 nm em n2 s hm = (.error "Flight not found", db)) ∧
    (∀ n2 s hm, f.available_seats < n2 →
      create_booking db now u fid nm em n2 s hm
        = (.error (notEnoughMsg f.available_seats), db)) := by
  refine ⟨?_, ?_, ?_⟩
  · refine ⟨⟨mkBookingId db.nextBookingIdx, u, fid, nm, em, n, "CONFIRMED",
      now, now, none, none⟩,
      { db with
        bookings := db.bookings ++ [⟨mkBookingId db.nextBookingIdx, u, fid, nm, em,
          n, "CONFIRMED", now, now, none, none⟩],
        flights := db.flights.map (fun f => if f.id == fid then
          { f with available_seats := f.available_seats - n } else f),
        nextBookingIdx := db.nextBookingIdx + 1 },
      ?_, rfl, rfl, rfl, ?_, rfl, ?_⟩
    · unfold create_booking check_seat_availability
      rw [hf]
      simp only []
      rw [if_pos (by simpa using hn), if_neg (by decide : ¬("CONFIRMED" : String) = "HELD")]
    · show ((db.flights.map (fun f => if f.id == fid then
          { f with available_seats := f.available_seats - n } else f)).find?
          (fun f => f.id == fid)) = _
      rw [findFlight_map_dec db.flights fid n]
      unfold findFlight at hf
      rw [hf]
      rfl
    · unfold delete_booking
      simp only []
      have hpre : db.bookings.find?
          (fun b => b.id == mkBookingId db.nextBookingIdx) = none := by
        rw [List.find?_eq_none]
        intro b hb
        simp [hfresh b hb]
      have hfind : ((db.bookings ++ [(⟨mkBookingId db.nextBookingIdx, u, fid, nm, em,
          n, "CONFIRMED", now, now, none, none⟩ : BookingRow)]).find?
          (fun b => b.id == mkBookingId db.nextBookingIdx))
          = some ⟨mkBookingId db.nextBookingIdx, u, fid, nm, em,
            n, "CONFIRMED", now, now, none, none⟩ := by
        rw [List.find?_append, hpre, Option.none_or]
        simp [List.find?]
      rw [hfind]
      simp only []
      have hfilter : ((db.bookings ++ [(⟨mkBookingId db.nextBookingIdx, u, fid, nm, em,
          n, "CONFIRMED", now, now, none, none⟩ : BookingRow)]).filter
          (fun r => !(r.id == mkBookingId db.nextBookingIdx))) = db.bookings := by
        rw [List.filter_append]
        have h1 : db.bookings.filter
            (fun r => !(r.id == mkBookingId db.nextBookingIdx)) = db.bookings := by
          rw [List.filter_eq_self]
          intro b hb
          simp [hfresh b hb]
        have h2 : ([(⟨mkBookingId db.nextBookingIdx, u, fid, nm, em, n, "CONFIRMED",
            now, now, none, none⟩ : BookingRow)].filter
            (fun r => !(r.id == mkBookingId db.nextBookingIdx))) = [] := by
          simp
        rw [h1, h2, List.append_nil]
      rw [hfilter, flights_restore db.flights fid n]
      
  · intro fid2 n2 s hm hnone
    unfold create_booking check_seat_availability
    rw [hnone]
    rfl
  · intro n2 s hm hlt
    unfold create_booking check_seat_availability
    rw [hf]
    simp only []
    rw [if_neg (by simpa using Int.not_le.mpr hlt)]
    rfl

/-- Concrete flight and database for the C9 witness. -/
def wFlight : Flight := ⟨"FL-000001", "ATH", "BCN", "2025-12-03", "Aegean", 120, 5⟩

/-- Concrete database: one flight with 5 seats, no bookings. -/
def wDB : DB := ⟨[wFlight], [], 0⟩

/-- Witness for C9: booking 2 of 5 seats and deleting the booking restores
the flight, and overbooking 9 seats raises the insufficient-seats error. -/
theorem booking_seats_roundtrip_witness :
    findFlight wDB "FL-000001" = some wFlight ∧
    (2 : Int) ≤ wFlight.available_seats ∧
    create_booking wDB 0 "user_001" "FL-000001" "John Doe" "jd@example.com"
        9 "CONFIRMED" none = (.error (notEnoughMsg 5), wDB) ∧
    (∃ row db1,
      create_booking wDB 0 "user_001" "FL-000001" "John Doe" "jd@example.com"
        2 "CONFIRMED" none = (.ok row, db1) ∧
      row.seats = 2 ∧ row.flight_id = "FL-000001" ∧ row.status = "CONFIRMED" ∧
      findFlight db1 "FL-000001"
        = some { wFlight with available_seats := wFlight.available_seats - 2 } ∧
      db1.bookings = wDB.bookings ++ [row] ∧
      delete_booking db1 row.id =
        (true, { db1 with bookings := wDB.bookings, flights := wDB.flights })) := by
  have h := booking_seats_roundtrip wDB 0 "user_001" "FL-000001" "John Doe"
    "jd@example.com" 2 wFlight rfl (by decide) (by decide)
  have herr := h.2.2 9 "CONFIRMED" none (by decide)
  exact ⟨rfl, by decide, herr, h.1⟩

/-!
## Claim C10: the hold-duration guard of `hold_flight`
-/

/-- C10: when the other booking arguments pass validation, a `hold_minutes`
value outside `(0, 1440]` makes `hold_flight` return the invalid-duration
error without any booking-API call (so no booking is created); a value in
`[1, 1440]` sends exactly one create request with status `HELD` and that
`hold_minutes`. -/
theorem hold_flight_guard (validate : BookingArgs → Option String)
    (api : CreateReq → Except String BookingRow) (fb : BookingRow → String)
    (a : BookingArgs) (hm : Int)
    (hvalid : validate a = none) :
    ((hm ≤ 0 ∨ 1440 < hm) →
      hold_flight validate api fb a hm = ⟨invalidHoldDurationMsg, []⟩) ∧
    (1 ≤ hm → hm ≤ 1440 →
      (hold_flight validate api fb a hm).apiCalls =
        [⟨a.user_id, a.flight_id, a.passenger_name, a.passenger_email, a.seats,
          "HELD", some hm⟩]) := by
  unfold hold_flight
  rw [hvalid]
  constructor
  · intro h
    rw [if_pos h]
  · intro h1 h2
    rw [if_neg (by omega)]
    cases happ : api ⟨a.user_id, a.flight_id, a.passenger_name, a.passenger_email,
        a.seats, "HELD", some hm⟩ with
    | error e =>
        simp only [happ]
        split <;> rfl
    | ok b =>
        simp only [happ]

/-- Concrete fixtures for the C10 witness. -/
def wArgs : BookingArgs := ⟨"user_001", "FL-000001", "John Doe", "jd@example.com", 1⟩

/-- Validation oracle accepting everything (models pydantic success). -/
def wValidate : BookingArgs → Option String := fun _ => none

/-- A held booking row as the API would return it. -/
def wRow : BookingRow :=
  ⟨"BK-0", "user_001", "FL-000001", "John Doe", "jd@example.com", 1, "HELD",
   0, 0, some 30, none⟩

/-- Booking-API oracle that always succeeds. -/
def wApi : CreateReq → Except String BookingRow := fun _ => .ok wRow

/-- Formatting oracle for `format_booking`. -/
def wFb : BookingRow → String := fun _ => "formatted"

/-- Witness for C10: `hold_minutes = 2000` is rejected with no API call,
`hold_minutes = 30` produces exactly one HELD create request. -/
theorem hold_flight_guard_witness :
    wValidate wArgs = none ∧
    hold_flight wValidate wApi wFb wArgs 2000 = ⟨invalidHoldDurationMsg, []⟩ ∧
    (hold_flight wValidate wApi wFb wArgs 30).apiCalls
      = [⟨"user_001", "FL-000001", "John Doe", "jd@example.com", 1, "HELD",
          some 30⟩] := by
  have ha := hold_flight_guard wValidate wApi wFb wArgs 2000 rfl
  have hb := hold_flight_guard wValidate wApi wFb wArgs 30 rfl
  exact ⟨rfl, ha.1 (Or.inr (by decide)), hb.2 (by decide) (by decide)⟩
